import Mathlib

/-!
Verification development for the phishing URL detector backend
(`backend/model.py`): feature extraction, logistic-regression prediction
with per-feature explanation, and the model lifecycle (train-or-load
with a persisted artifact).

Strings are modelled as `List Char`; Python floats are modelled as real
numbers (counts stay in `ℕ`, classifier weights in `ℚ`).  Third-party
dependencies (`tldextract`, `re`, `joblib`, scikit-learn's
`LogisticRegression.predict_proba`) are modelled from their documented
behaviour where the Python code calls them.
-/

namespace Phish

/- ================= string helpers ================= -/

/-- Characters removed by Python's `str.strip()` (ASCII whitespace). -/
def isPySpace (c : Char) : Bool :=
  c == ' ' || c == '\t' || c == '\n' || c == '\r' || c == '\x0b' || c == '\x0c'

/-- Python `url.strip()` (line 34 of `model.py`). -/
def pyStrip (s : List Char) : List Char :=
  ((s.dropWhile isPySpace).reverse.dropWhile isPySpace).reverse

/-- Python `str.lower()` restricted to its ASCII behaviour. -/
def lowered (s : List Char) : List Char := s.map Char.toLower

/-- Python substring test `needle in haystack`. -/
def containsSub (needle : List Char) : List Char → Bool
  | [] => needle.isEmpty
  | c :: rest => needle.isPrefixOf (c :: rest) || containsSub needle rest

/-- Split off everything up to and including the first occurrence of `sep`:
`some (before, after)` when `sep` occurs, `none` otherwise. -/
def splitOnceAt (sep : Char) : List Char → Option (List Char × List Char)
  | [] => none
  | c :: rest =>
    if c = sep then some ([], rest)
    else
      match splitOnceAt sep rest with
      | none => none
      | some (a, b) => some (c :: a, b)

/-- Python `s.split(sep, n)` for a one-character separator: at most `n`
splits, so the result has at most `n + 1` pieces and is never empty. -/
def splitAtMost (sep : Char) : ℕ → List Char → List (List Char)
  | 0, s => [s]
  | n + 1, s =>
    match splitOnceAt sep s with
    | none => [s]
    | some (a, b) => a :: splitAtMost sep n b

/-- Python `s.split(sep)` (unbounded) for a one-character separator. -/
def splitAll (sep : Char) (s : List Char) : List (List Char) :=
  s.foldr
    (fun c acc =>
      match acc with
      | [] => [[c]]
      | a :: as => if c = sep then [] :: a :: as else (c :: a) :: as)
    [[]]

/-- Drop everything up to and including the first occurrence of `sep`;
`none` when `sep` does not occur.  Used as the specification-side view of
"the portion after the n-th separator". -/
def dropThroughSep (sep : Char) : List Char → Option (List Char)
  | [] => none
  | c :: rest => if c = sep then some rest else dropThroughSep sep rest

/-- The portion of `s` strictly after its `n`-th `/` (specification-side
definition used to state the `long_path` claim). -/
def afterSlashes : ℕ → List Char → Option (List Char)
  | 0, s => some s
  | n + 1, s =>
    match dropThroughSep '/' s with
    | none => none
    | some r => afterSlashes n r

/- ================= has_ip: the regex `(\d{1,3}\.){3}\d{1,3}` ================= -/

/-- One step of the regex `(\d{1,3}\.){3}\d{1,3}` (line 45 of `model.py`):
consume 1–3 digits followed by a literal dot.  A match of `\d{1,3}\.` exists
at the head of `s` iff the leading digit run has length 1–3 (a run of 4 or
more makes the dot impossible) and is followed by `'.'`. -/
def ipGroupStep (s : List Char) : Option (List Char) :=
  let k := (s.takeWhile Char.isDigit).length
  if 1 ≤ k ∧ k ≤ 3 then
    match s.dropWhile Char.isDigit with
    | '.' :: rest => some rest
    | _ => none
  else none

/-- Does `(\d{1,3}\.){3}\d{1,3}` match starting at the head of `s`? -/
def matchIpAt (s : List Char) : Bool :=
  match ipGroupStep s with
  | none => false
  | some s1 =>
    match ipGroupStep s1 with
    | none => false
    | some s2 =>
      match ipGroupStep s2 with
      | none => false
      | some s3 => decide (1 ≤ (s3.takeWhile Char.isDigit).length)

/-- Python `re.search(r"(\d{1,3}\.){3}\d{1,3}", url)`: a match exists at
some position. -/
def hasIpPattern (s : List Char) : Bool := s.tails.any matchIpAt

/- ================= tldextract model ================= -/

/-- Model of the public-suffix snapshot used by the `tldextract`
dependency (a small excerpt sufficient for the corpus; unknown TLDs are
handled by the wildcard rule below, as the Public Suffix List specifies). -/
def pslRules : List (List String) :=
  [["com"], ["org"], ["net"], ["edu"], ["gov"], ["io"], ["dev"], ["uk"],
   ["co", "uk"], ["ru"], ["tk"], ["cn"], ["ga"], ["cf"], ["ml"], ["gq"],
   ["work"], ["top"], ["xyz"], ["link"], ["click"], ["country"], ["site"],
   ["buzz"], ["cfd"], ["php"]]

/-- Everything after the first `"://"`, if present. -/
def afterSchemeSep : List Char → Option (List Char)
  | ':' :: '/' :: '/' :: rest => some rest
  | _ :: rest => afterSchemeSep rest
  | [] => none

/-- Model of `tldextract`'s host isolation: drop the scheme, cut at the
first `/`, `?` or `#`, keep the part after the last `@` (userinfo), drop a
`:port`, and lowercase. -/
def hostOf (s : List Char) : List Char :=
  let afterScheme := (afterSchemeSep s).getD s
  let netloc := afterScheme.takeWhile (fun c => !(c == '/' || c == '?' || c == '#'))
  let afterAt := (splitAll '@' netloc).getLastD []
  let noPort := afterAt.takeWhile (fun c => !(c == ':'))
  lowered noPort

/-- Does this label list look like a dotted-quad IPv4 host? -/
def isIpLabels (labels : List (List Char)) : Bool :=
  labels.length == 4 && labels.all (fun l => !l.isEmpty && l.all Char.isDigit)

/-- Is this label sequence a known public suffix? -/
def pslHas (suffix : List (List Char)) : Bool :=
  pslRules.any (fun r => r.map String.data == suffix)

/-- Length (in labels) of the longest known public suffix ending the label
list (`0` when none matches). -/
def suffixLen (labels : List (List Char)) : ℕ :=
  (List.range (labels.length + 1)).foldl
    (fun best k =>
      if decide (0 < k) && pslHas (labels.drop (labels.length - k)) then k else best)
    0

/-- Result of `tldextract.extract`. -/
structure TldParts where
  subdomain : List Char
  domain : List Char
  tldSuffix : List Char
deriving DecidableEq

/-- Join label lists with dots. -/
def joinDots (parts : List (List Char)) : List Char :=
  List.intercalate ['.'] parts

/-- Model of `tldextract.extract(url)` (line 35 of `model.py`): isolate the
host, detect IPv4 hosts, otherwise split off the longest matching public
suffix (falling back to the wildcard rule: the last label) and return
(subdomain, domain, suffix). -/
def tldExtract (u : List Char) : TldParts :=
  let host := hostOf u
  let labels := splitAll '.' host
  if isIpLabels labels then ⟨[], host, []⟩
  else if labels.length ≤ 1 then ⟨[], host, []⟩
  else
    let k := max (suffixLen labels) 1
    let front := labels.take (labels.length - k)
    ⟨joinDots front.dropLast, front.getLastD [], joinDots (labels.drop (labels.length - k))⟩

/- ================= feature extraction (lines 33–75) ================= -/

def SUSPICIOUS_TLDS : List String :=
  ["ru", "tk", "cn", "ga", "cf", "ml", "gq", "work", "top", "xyz", "link",
   "click", "country"]

def KEYWORDS : List String :=
  ["login", "verify", "update", "secure", "account", "bank", "support",
   "limited", "confirm", "apple", "paypal", "microsoft", "amazon", "prize",
   "winner", "free", "gift", "download"]

/-- `f"{parsed.domain}.{parsed.suffix}" if parsed.suffix else parsed.domain`
(line 36). -/
def domainFull (p : TldParts) : List Char :=
  if p.tldSuffix.isEmpty then p.domain else p.domain ++ '.' :: p.tldSuffix

/-- `".".join([p for p in [subdomain, domain] if p])` (line 38). -/
def hostString (u : List Char) : List Char :=
  let p := tldExtract u
  joinDots (([p.subdomain, domainFull p]).filter (fun s => !s.isEmpty))

/-- `subdomain.count(".") + (1 if subdomain else 0)` (line 48). -/
def numSubdomains (u : List Char) : ℕ :=
  let sub := (tldExtract u).subdomain
  sub.count '.' + (if sub.isEmpty then 0 else 1)

/-- `1.0 if "-" in parsed.domain else 0.0` (line 47). -/
def hasDashInDomain (u : List Char) : Bool := (tldExtract u).domain.contains '-'

/-- `tld = parsed.suffix.lower(); tld in SUSPICIOUS_TLDS` (lines 49–50). -/
def suspiciousTldB (u : List Char) : Bool :=
  SUSPICIOUS_TLDS.contains (String.mk (lowered (tldExtract u).tldSuffix))

/-- `sum(ch.isdigit() for ch in url)` (line 52, ASCII digits). -/
def numDigits (u : List Char) : ℕ := u.countP Char.isDigit

/-- `sum(ch in "._-@?&=%" for ch in url)` (line 53). -/
def numSpecials (u : List Char) : ℕ :=
  u.countP (fun c => "._-@?&=%".data.contains c)

/-- `sum(1 for kw in KEYWORDS if kw in url.lower())` (line 54): the number
of keywords present (not occurrence count). -/
def keywordHits (u : List Char) : ℕ :=
  (KEYWORDS.filter (fun kw => containsSub kw.data (lowered u))).length

/-- `url.lower().startswith("https://")` (line 56). -/
def usesHttpsB (u : List Char) : Bool :=
  "https://".data.isPrefixOf (lowered u)

/-- `url.count("=")` (line 57). -/
def numParams (u : List Char) : ℕ := u.count '='

/-- `len(url.split("/", 3)[-1]) > 60` (line 58). -/
def longPathB (u : List Char) : Bool :=
  decide (60 < ((splitAtMost '/' 3 u).getLastD []).length)

/-- Shannon entropy (base 2) of the character distribution (lines 25–31);
`0.0` for the empty string. -/
noncomputable def shannonEntropy (s : List Char) : ℝ :=
  if s.isEmpty then 0
  else
    -(s.dedup.map (fun ch =>
        ((s.count ch : ℝ) / (s.length : ℝ)) *
          Real.logb 2 ((s.count ch : ℝ) / (s.length : ℝ)))).sum

/-- The 13 feature names, in the declaration order of the dict literal at
lines 60–74 of `model.py`. -/
def featureKeys : List String :=
  ["length", "num_digits", "num_specials", "num_subdomains", "has_ip",
   "has_at", "has_dash_in_domain", "suspicious_tld", "keyword_hits",
   "host_entropy", "uses_https", "num_params", "long_path"]

/-- `extract_features(url)` (lines 33–75): the ordered feature mapping.
Python dicts preserve insertion order, so the mapping is modelled as an
ordered association list. -/
noncomputable def extractFeatures (url : String) : List (String × ℝ) :=
  let u := pyStrip url.data
  [("length", (u.length : ℝ)),
   ("num_digits", (numDigits u : ℝ)),
   ("num_specials", (numSpecials u : ℝ)),
   ("num_subdomains", (numSubdomains u : ℝ)),
   ("has_ip", if hasIpPattern u then 1 else 0),
   ("has_at", if u.contains '@' then 1 else 0),
   ("has_dash_in_domain", if hasDashInDomain u then 1 else 0),
   ("suspicious_tld", if suspiciousTldB u then 1 else 0),
   ("keyword_hits", (keywordHits u : ℝ)),
   ("host_entropy", shannonEntropy (hostString u)),
   ("uses_https", if usesHttpsB u then 1 else 0),
   ("num_params", (numParams u : ℝ)),
   ("long_path", if longPathB u then 1 else 0)]

/- ================= classifier and explanation (lines 77–105) ================= -/

/-- The persisted scikit-learn `LogisticRegression` object, modelled by its
data: `coef_[0]` and `intercept_[0]`.  Python float weights are rationals. -/
structure Clf where
  coef : List ℚ
  intercept : ℚ
deriving DecidableEq

/-- The `URLModel` dataclass (lines 77–80). -/
structure URLModel where
  clf : Clf
  feature_names : List String
deriving DecidableEq

/-- `X = [[feats[f] for f in self.feature_names]]` (line 84).  The Python
dict access `feats[f]` is total here because `feature_names` always holds
keys of the mapping; a missing key is modelled as a `0` default. -/
noncomputable def featureRow (m : URLModel) (url : String) : List ℝ :=
  m.feature_names.map (fun f => ((extractFeatures url).lookup f).getD 0)

/-- The pre-sigmoid decision score `dot(coef, X[0]) + intercept`. -/
noncomputable def score (m : URLModel) (url : String) : ℝ :=
  (List.zipWith (fun (w : ℚ) (x : ℝ) => (w : ℝ) * x) m.clf.coef
      (featureRow m url)).sum +
    (m.clf.intercept : ℝ)

/-- The logistic function, modelling scikit-learn's
`predict_proba(X)[0,1]` for a binary `LogisticRegression`. -/
noncomputable def sigmoid (z : ℝ) : ℝ := 1 / (1 + Real.exp (-z))

/-- `proba = float(self.clf.predict_proba(X)[0,1])` (line 85). -/
noncomputable def predictProba (m : URLModel) (url : String) : ℝ :=
  sigmoid (score m url)

open Classical in
/-- `label = "phishing" if proba >= 0.5 else "legit"` (line 86). -/
noncomputable def predLabel (m : URLModel) (url : String) : String :=
  if (1 / 2 : ℝ) ≤ predictProba m url then "phishing" else "legit"

/-- One element of the `top_contributors` list: the dict
`{"feature": n, "value": float(v), "logit_contribution": float(c)}`
built at line 94. -/
structure Contributor where
  feature : String
  value : ℝ
  logit_contribution : ℚ

/-- `weight[feature]`: the coefficient paired with a feature name. -/
def weightOf (m : URLModel) (f : String) : ℚ :=
  ((m.feature_names.zip m.clf.coef).lookup f).getD 0

/-- The dead list at line 91:
`[(name, float(val*coef[i])) for i,(name,val) in enumerate(zip(self.feature_names, X[0]))]`
— the genuine per-feature products `value * weight`, computed and never used. -/
noncomputable def contributionsDead (m : URLModel) (url : String) : List (String × ℝ) :=
  List.zipWith (fun (w : ℚ) (p : String × ℝ) => (p.1, p.2 * (w : ℝ)))
    m.clf.coef (m.feature_names.zip (featureRow m url))

/-- The list the code actually sorts (line 94):
`[{...} for (n,c), v in zip(zip(self.feature_names, coef), X[0])]` —
`n` is the name, `c` is the raw coefficient `coef[i]` (not a product), and
`v` is the feature value. -/
noncomputable def contribEntries (m : URLModel) (url : String) : List Contributor :=
  List.zipWith (fun (p : String × ℚ) (v : ℝ) => ⟨p.1, v, p.2⟩)
    (m.feature_names.zip m.clf.coef) (featureRow m url)

/-- Stable insertion step for a sort that is descending in
`|key ·|`: `x` passes over the entries with strictly larger key and lands
in front of the first entry whose key is not larger. -/
def insertDesc {α : Type} (key : α → ℚ) (x : α) : List α → List α
  | [] => [x]
  | y :: ys => if |key x| < |key y| then y :: insertDesc key x ys else x :: y :: ys

/-- Model of Python's
`sorted(entries, key=lambda d: abs(d["logit_contribution"]), reverse=True)`
(lines 93–97): the stable sort descending in absolute key.  A stable
descending sort is unique as a function of the input order, so any correct
implementation of it agrees with CPython's timsort. -/
def sortByAbsDesc {α : Type} (key : α → ℚ) (l : List α) : List α :=
  l.foldr (insertDesc key) []

/-- `top = sorted(...)[:5]` (lines 93–97). -/
noncomputable def topContributors (m : URLModel) (url : String) : List Contributor :=
  (sortByAbsDesc Contributor.logit_contribution (contribEntries m url)).take 5

/-- The dict returned by `predict_with_explain` (lines 99–105). -/
structure PredictionResult where
  url : String
  pred_label : String
  pred_proba : ℝ
  features : List (String × ℝ)
  top_contributors : List Contributor

/-- `URLModel.predict_with_explain` (lines 82–105). -/
noncomputable def predictWithExplain (m : URLModel) (url : String) : PredictionResult :=
  { url := url
    pred_label := predLabel m url
    pred_proba := predictProba m url
    features := extractFeatures url
    top_contributors := topContributors m url }

/- ================= model lifecycle (lines 215–244) ================= -/

/-- The durable storage slot behind `MODEL_PATH`: `none` when no artifact
exists, `some clf` when one is persisted.  `joblib` serialization is
modelled as faithful (a dump followed by a load recovers the object). -/
structure FS where
  model : Option Clf
deriving DecidableEq

/-- The environment a `train_or_load` call runs in: the classifier that
scikit-learn's deterministic `fit` on `load_sample_dataset()` would
produce, and whether the `joblib.dump` write to `MODEL_PATH` succeeds. -/
structure Env where
  fitted : Clf
  saveOk : Bool
deriving DecidableEq

/-- Which branch a `train_or_load` execution took: line 216's load of the
existing artifact, or the training path at lines 219–241. -/
inductive InitPath
  | loadPath
  | trainPath
deriving DecidableEq

/-- Outcome of one `train_or_load` execution: the returned model (or the
propagated exception), the storage state afterwards, and the branch taken. -/
structure InitResult where
  result : Except String URLModel
  fs : FS
  path : InitPath

/-- Feature names reconstructed on the load path (line 218):
`list(extract_features("https://example.com").keys())`. -/
noncomputable def loadedFeatureNames : List String :=
  (extractFeatures "https://example.com").map Prod.fst

/-- Feature names fixed on the training path (lines 221–226, 241): the
training rows are the `extract_features` dicts with a `"label"` key
appended, the DataFrame columns follow that key order, and line 241 drops
`"label"`. -/
noncomputable def trainedFeatureNames : List String :=
  (((extractFeatures "https://www.google.com/").map Prod.fst) ++ ["label"]).filter
    (fun c => c != "label")

/-- `train_or_load` (lines 215–241).  If `MODEL_PATH` exists the artifact
is loaded as-is; otherwise the model is fitted and `joblib.dump` runs
*outside* any `try`, so a failed write propagates as an exception.  The
`try`/`except` at lines 234–240 only guards the diagnostic
`classification_report` evaluation (a print, with no observable state). -/
noncomputable def trainOrLoad (env : Env) (fs : FS) : InitResult :=
  match fs.model with
  | some clf =>
    { result := .ok ⟨clf, loadedFeatureNames⟩, fs := fs, path := .loadPath }
  | none =>
    if env.saveOk then
      { result := .ok ⟨env.fitted, trainedFeatureNames⟩
        fs := ⟨some env.fitted⟩
        path := .trainPath }
    else
      { result := .error "joblib.dump raised", fs := fs, path := .trainPath }

/-- `ensure_model` (lines 243–244): its body is exactly one call of
`train_or_load`, with no caching or memoization. -/
noncomputable def ensureModel (env : Env) (fs : FS) : InitResult :=
  trainOrLoad env fs

/-- Two consecutive `ensure_model()` calls in one process, threading the
storage state. -/
noncomputable def twoEnsureModelCalls (env : Env) (fs : FS) : InitResult × InitResult :=
  let r1 := ensureModel env fs
  (r1, ensureModel env r1.fs)

/- ================= lemmas about the stable sort ================= -/

theorem perm_insertDesc {α : Type} (key : α → ℚ) (x : α) (l : List α) :
    List.Perm (insertDesc key x l) (x :: l) := by
  induction l with
  | nil => exact List.Perm.refl _
  | cons y ys ih =>
    simp only [insertDesc]
    by_cases h : |key x| < |key y|
    · rw [if_pos h]
      exact (ih.cons y).trans (List.Perm.swap x y ys)
    · rw [if_neg h]

theorem pairwise_insertDesc {α : Type} (key : α → ℚ) (x : α) (l : List α)
    (h : l.Pairwise (fun a b => |key b| ≤ |key a|)) :
    (insertDesc key x l).Pairwise (fun a b => |key b| ≤ |key a|) := by
  induction l with
  | nil => simp [insertDesc]
  | cons y ys ih =>
    simp only [insertDesc]
    rcases List.pairwise_cons.mp h with ⟨hy, hys⟩
    by_cases hxy : |key x| < |key y|
    · rw [if_pos hxy]
      refine List.pairwise_cons.mpr ⟨?_, ih hys⟩
      intro z hz
      have hz' : z ∈ x :: ys := (perm_insertDesc key x ys).mem_iff.mp hz
      rcases List.mem_cons.mp hz' with rfl | hzys
      · exact le_of_lt hxy
      · exact hy z hzys
    · rw [if_neg hxy]
      push_neg at hxy
      refine List.pairwise_cons.mpr ⟨?_, h⟩
      intro z hz
      rcases List.mem_cons.mp hz with rfl | hzys
      · exact hxy
      · exact le_trans (hy z hzys) hxy

theorem pairwise_sortByAbsDesc {α : Type} (key : α → ℚ) (l : List α) :
    (sortByAbsDesc key l).Pairwise (fun a b => |key b| ≤ |key a|) := by
  induction l with
  | nil => simp [sortByAbsDesc]
  | cons x xs ih => exact pairwise_insertDesc key x _ ih

theorem filter_insertDesc {α : Type} (key : α → ℚ) (p : α → Bool) (x : α) (l : List α)
    (hp : ∀ a b, p a = true → p b = true → |key a| = |key b|) :
    (insertDesc key x l).filter p = (x :: l).filter p := by
  induction l with
  | nil => rfl
  | cons y ys ih =>
    simp only [insertDesc]
    by_cases hxy : |key x| < |key y|
    · rw [if_pos hxy]
      by_cases hpx : p x = true
      · by_cases hpy : p y = true
        · exact absurd hxy (by rw [hp x y hpx hpy]; exact lt_irrefl _)
        · simp [List.filter_cons, hpx, hpy, ih]
      · simp [List.filter_cons, hpx, ih]
    · rw [if_neg hxy]

theorem filter_sortByAbsDesc {α : Type} (key : α → ℚ) (p : α → Bool) (l : List α)
    (hp : ∀ a b, p a = true → p b = true → |key a| = |key b|) :
    (sortByAbsDesc key l).filter p = l.filter p := by
  induction l with
  | nil => rfl
  | cons x xs ih =>
    have h1 : (sortByAbsDesc key (x :: xs)).filter p
        = (x :: sortByAbsDesc key xs).filter p :=
      filter_insertDesc key p x _ hp
    rw [h1, List.filter_cons, List.filter_cons, ih]

theorem sortByAbsDesc_of_no_lt {α : Type} (key : α → ℚ) (l : List α)
    (h : ∀ x ∈ l, ∀ y ∈ l, ¬(|key x| < |key y|)) : sortByAbsDesc key l = l := by
  induction l with
  | nil => rfl
  | cons x xs ih =>
    have hxs := ih (fun a ha b hb =>
      h a (List.mem_cons_of_mem x ha) b (List.mem_cons_of_mem x hb))
    show insertDesc key x (sortByAbsDesc key xs) = x :: xs
    rw [hxs]
    cases xs with
    | nil => rfl
    | cons y ys =>
      simp only [insertDesc]
      rw [if_neg (h x (List.mem_cons_self x _) y (by simp))]

/- ================= lemmas about entropy ================= -/

theorem list_sum_nonpos {l : List ℝ} (h : ∀ x ∈ l, x ≤ 0) : l.sum ≤ 0 := by
  induction l with
  | nil => simp
  | cons a t ih =>
    simp only [List.sum_cons]
    have ha := h a (List.mem_cons_self a t)
    have ht := ih fun x hx => h x (List.mem_cons_of_mem a hx)
    linarith

theorem shannonEntropy_nonneg (s : List Char) : 0 ≤ shannonEntropy s := by
  unfold shannonEntropy
  by_cases hs : s.isEmpty
  · simp [hs]
  · rw [if_neg hs]
    have hne : s ≠ [] := by simpa [List.isEmpty_iff] using hs
    have hlen : 0 < (s.length : ℝ) := by
      exact_mod_cast List.length_pos.mpr hne
    refine neg_nonneg.mpr (list_sum_nonpos ?_)
    intro x hx
    rcases List.mem_map.mp hx with ⟨ch, hch, rfl⟩
    have hcount : 0 < (s.count ch : ℝ) := by
      exact_mod_cast List.count_pos_iff.mpr (List.mem_dedup.mp hch)
    have hle : (s.count ch : ℝ) ≤ (s.length : ℝ) := by
      exact_mod_cast List.count_le_length ch s
    have h1 : 0 ≤ (s.count ch : ℝ) / (s.length : ℝ) := le_of_lt (div_pos hcount hlen)
    have h2 : (s.count ch : ℝ) / (s.length : ℝ) ≤ 1 := (div_le_one hlen).mpr hle
    have hlog : Real.logb 2 ((s.count ch : ℝ) / (s.length : ℝ)) ≤ 0 :=
      Real.logb_nonpos (by norm_num) h1 h2
    exact mul_nonpos_of_nonneg_of_nonpos h1 hlog

/- ================= lemmas about splitting ================= -/

theorem dropThroughSep_of_splitOnceAt (sep : Char) (s : List Char) :
    ∀ {a b : List Char}, splitOnceAt sep s = some (a, b) →
      dropThroughSep sep s = some b := by
  induction s with
  | nil => intro a b h; simp [splitOnceAt] at h
  | cons c rest ih =>
    intro a b h
    simp only [splitOnceAt] at h
    simp only [dropThroughSep]
    by_cases hc : c = sep
    · rw [if_pos hc] at h
      rw [if_pos hc]
      simp only [Option.some.injEq, Prod.mk.injEq] at h
      rw [h.2]
    · rw [if_neg hc] at h
      rw [if_neg hc]
      cases hsp : splitOnceAt sep rest with
      | none => rw [hsp] at h; exact absurd h (by simp)
      | some p =>
        obtain ⟨a', b'⟩ := p
        rw [hsp] at h
        simp only [Option.some.injEq, Prod.mk.injEq] at h
        rw [← h.2]
        exact ih hsp

theorem count_of_splitOnceAt (sep : Char) (s : List Char) :
    ∀ {a b : List Char}, splitOnceAt sep s = some (a, b) →
      s.count sep = b.count sep + 1 := by
  induction s with
  | nil => intro a b h; simp [splitOnceAt] at h
  | cons c rest ih =>
    intro a b h
    simp only [splitOnceAt] at h
    by_cases hc : c = sep
    · rw [if_pos hc] at h
      simp only [Option.some.injEq, Prod.mk.injEq] at h
      rw [← h.2, hc, List.count_cons_self]
    · rw [if_neg hc] at h
      cases hsp : splitOnceAt sep rest with
      | none => rw [hsp] at h; exact absurd h (by simp)
      | some p =>
        obtain ⟨a', b'⟩ := p
        rw [hsp] at h
        simp only [Option.some.injEq, Prod.mk.injEq] at h
        rw [List.count_cons_of_ne (fun hh => hc hh.symm), ← h.2]
        exact ih hsp

theorem splitOnceAt_isSome (sep : Char) (s : List Char) (h : 0 < s.count sep) :
    ∃ a b, splitOnceAt sep s = some (a, b) := by
  induction s with
  | nil => simp at h
  | cons c rest ih =>
    by_cases hc : c = sep
    · exact ⟨[], rest, by simp [splitOnceAt, hc]⟩
    · have h' : 0 < rest.count sep := by
        rwa [List.count_cons_of_ne (fun hh => hc hh.symm)] at h
      obtain ⟨a, b, hab⟩ := ih h'
      exact ⟨c :: a, b, by simp [splitOnceAt, hc, hab]⟩

theorem splitAtMost_ne_nil (sep : Char) (n : ℕ) (s : List Char) :
    splitAtMost sep n s ≠ [] := by
  cases n with
  | zero => simp [splitAtMost]
  | succ m =>
    simp only [splitAtMost]
    cases splitOnceAt sep s with
    | none => simp
    | some p => obtain ⟨a, b⟩ := p; simp

theorem getLastD_cons_of_ne_nil {α : Type} (a : α) (l : List α) (d : α)
    (h : l ≠ []) : (a :: l).getLastD d = l.getLastD d := by
  cases l with
  | nil => exact absurd rfl h
  | cons b t => simp [List.getLastD_eq_getLast?, List.getLast?_cons_cons]

theorem afterSlashes_splitAtMost (n : ℕ) (s : List Char)
    (h : n ≤ s.count '/') :
    ∃ r, afterSlashes n s = some r ∧ (splitAtMost '/' n s).getLastD [] = r := by
  induction n generalizing s with
  | zero => exact ⟨s, rfl, rfl⟩
  | succ n ih =>
    have h1 : 0 < s.count '/' := lt_of_lt_of_le (Nat.succ_pos n) h
    obtain ⟨a, b, hab⟩ := splitOnceAt_isSome '/' s h1
    have hcount := count_of_splitOnceAt '/' s hab
    have hb : n ≤ b.count '/' := by omega
    obtain ⟨r, hr1, hr2⟩ := ih b hb
    refine ⟨r, ?_, ?_⟩
    · simp only [afterSlashes, dropThroughSep_of_splitOnceAt '/' s hab]
      exact hr1
    · simp only [splitAtMost, hab]
      rw [getLastD_cons_of_ne_nil a _ [] (splitAtMost_ne_nil '/' n b)]
      exact hr2

/- ================= feature-name bookkeeping ================= -/

theorem extractFeatures_keys (url : String) :
    (extractFeatures url).map Prod.fst = featureKeys := rfl

theorem loadedFeatureNames_eq : loadedFeatureNames = featureKeys := rfl

theorem trainedFeatureNames_eq : trainedFeatureNames = featureKeys := by decide

/-- A Bool-guarded `0/1` value is a flag. -/
theorem boolFlag_cases (b : Bool) :
    (if b then (1 : ℝ) else 0) = 0 ∨ (if b then (1 : ℝ) else 0) = 1 := by
  cases b <;> simp

/- ================= claim theorems ================= -/

/-- C4: for every URL string, `extract_features` returns (totally, with no
exception — it is a total function of the input) a mapping with exactly the
fixed 13 feature keys in declaration order; the six flag features `has_ip`,
`has_at`, `has_dash_in_domain`, `suspicious_tld`, `uses_https`, `long_path`
are each `0.0` or `1.0`; and the one non-count numeric value,
`host_entropy`, is a well-defined non-negative real (all values are finite
real numbers). -/
theorem c4_extract_features_total_shape (url : String) :
    (extractFeatures url).map Prod.fst = featureKeys ∧
    (∀ k ∈ (["has_ip", "has_at", "has_dash_in_domain", "suspicious_tld",
        "uses_https", "long_path"] : List String),
      ∃ v : ℝ, (extractFeatures url).lookup k = some v ∧ (v = 0 ∨ v = 1)) ∧
    (∃ e : ℝ, (extractFeatures url).lookup "host_entropy" = some e ∧ 0 ≤ e) := by
  refine ⟨rfl, ?_, ⟨_, rfl, shannonEntropy_nonneg _⟩⟩
  intro k hk
  simp only [List.mem_cons, List.not_mem_nil, or_false] at hk
  rcases hk with rfl | rfl | rfl | rfl | rfl | rfl
  · exact ⟨_, rfl, boolFlag_cases _⟩
  · exact ⟨_, rfl, boolFlag_cases _⟩
  · exact ⟨_, rfl, boolFlag_cases _⟩
  · exact ⟨_, rfl, boolFlag_cases _⟩
  · exact ⟨_, rfl, boolFlag_cases _⟩
  · exact ⟨_, rfl, boolFlag_cases _⟩

/-- C9: on the concrete input `"http://192.168.1.10/confirm/credential.php"`,
`extract_features` yields `has_ip = 1.0` and `keyword_hits ≥ 1` (the keyword
`"confirm"` is a substring of the lowercased URL). -/
theorem c9_concrete_ip_and_keyword :
    (extractFeatures "http://192.168.1.10/confirm/credential.php").lookup
        "has_ip" = some 1 ∧
    ∃ k : ℝ, (extractFeatures
        "http://192.168.1.10/confirm/credential.php").lookup
        "keyword_hits" = some k ∧ 1 ≤ k := by
  constructor
  · have hb : hasIpPattern
        (pyStrip "http://192.168.1.10/confirm/credential.php".data) = true := by
      decide
    show (if hasIpPattern
        (pyStrip "http://192.168.1.10/confirm/credential.php".data)
      then some (1 : ℝ) else some 0) = some 1
    rw [hb]
    rfl
  · refine ⟨_, rfl, ?_⟩
    have hk : 1 ≤ keywordHits
        (pyStrip "http://192.168.1.10/confirm/credential.php".data) := by
      decide
    exact_mod_cast hk

/-- C10: for every URL string, the extracted feature vector satisfies
`num_params ≤ num_specials`, because every `=` counted by `num_params` is
also in the special-character set `. _ - @ ? & = %` counted by
`num_specials`. -/
theorem c10_num_params_le_num_specials (url : String) :
    ∃ p s : ℝ, (extractFeatures url).lookup "num_params" = some p ∧
      (extractFeatures url).lookup "num_specials" = some s ∧ p ≤ s := by
  refine ⟨_, _, rfl, rfl, ?_⟩
  have h : numParams (pyStrip url.data) ≤ numSpecials (pyStrip url.data) := by
    unfold numParams numSpecials
    rw [List.count_eq_countP]
    refine List.countP_mono_left ?_
    intro x _ hx
    have hx' : x = '=' := by simpa using hx
    rw [hx']
    decide
  exact_mod_cast h

/-- C8 counterexample: the claim says `long_path = 0.0` for every URL with
fewer than three `/` characters, but on the 61-character slash-free URL
`"aaaa…a"` the code computes `long_path = 1.0` (Python's
`url.split("/", 3)[-1]` is the whole URL when no slash occurs). -/
theorem c8_counterexample :
    (extractFeatures (String.mk (List.replicate 61 'a'))).lookup "long_path"
        = some 1 ∧
    (pyStrip (String.mk (List.replicate 61 'a')).data).count '/' = 0 ∧
    (1 : ℝ) ≠ 0 := by
  refine ⟨?_, by decide, by norm_num⟩
  have hb : longPathB (pyStrip (String.mk (List.replicate 61 'a')).data)
      = true := by decide
  show (if longPathB (pyStrip (String.mk (List.replicate 61 'a')).data)
      then some (1 : ℝ) else some 0) = some 1
  rw [hb]
  rfl

/-- C8 (amended): for every URL that contains at least three `/` characters
(after stripping), `long_path = 1.0` iff the portion of the URL after the
third `/` exceeds 60 characters; for URLs with fewer than three `/`
characters the code instead compares the portion after the last available
`/` (the whole URL when none occurs), which can also produce `1.0`. -/
theorem c8_long_path_after_third_slash (u : String)
    (h : 3 ≤ (pyStrip u.data).count '/') :
    ∃ r, afterSlashes 3 (pyStrip u.data) = some r ∧
      ((extractFeatures u).lookup "long_path" = some 1 ↔ 60 < r.length) := by
  obtain ⟨r, hr1, hr2⟩ := afterSlashes_splitAtMost 3 (pyStrip u.data) h
  refine ⟨r, hr1, ?_⟩
  have hval : (extractFeatures u).lookup "long_path"
      = some (if longPathB (pyStrip u.data) then (1 : ℝ) else 0) := rfl
  rw [hval]
  unfold longPathB
  rw [hr2]
  by_cases hlen : 60 < r.length
  · simp [hlen]
  · simp [hlen]

/-- C8 witness: a URL with three slashes and a 61-character tail satisfies
the hypothesis and the amended property. -/
theorem c8_long_path_witness :
    3 ≤ (pyStrip ("http://x/" ++ String.mk (List.replicate 61 'a')).data).count '/' ∧
    ∃ r, afterSlashes 3
        (pyStrip ("http://x/" ++ String.mk (List.replicate 61 'a')).data) = some r ∧
      ((extractFeatures ("http://x/" ++ String.mk (List.replicate 61 'a'))).lookup
          "long_path" = some 1 ↔ 60 < r.length) :=
  ⟨by decide, c8_long_path_after_third_slash _ (by decide)⟩

/-- C5: for every model and URL, `predict_with_explain` returns
`pred_proba` in `[0, 1]` and `pred_label = "phishing"` exactly when
`pred_proba ≥ 0.5` (the threshold is inclusive, line 86: `proba >= 0.5`). -/
theorem c5_proba_bounds_and_inclusive_threshold (m : URLModel) (url : String) :
    0 ≤ (predictWithExplain m url).pred_proba ∧
    (predictWithExplain m url).pred_proba ≤ 1 ∧
    ((predictWithExplain m url).pred_label = "phishing" ↔
      (1 / 2 : ℝ) ≤ (predictWithExplain m url).pred_proba) := by
  have hexp : 0 < Real.exp (-(score m url)) := Real.exp_pos _
  have hden : (0 : ℝ) < 1 + Real.exp (-(score m url)) := by linarith
  have hproba : (predictWithExplain m url).pred_proba
      = 1 / (1 + Real.exp (-(score m url))) := rfl
  refine ⟨?_, ?_, ?_⟩
  · rw [hproba]
    positivity
  · rw [hproba, div_le_one hden]
    linarith
  · show predLabel m url = "phishing" ↔ (1 / 2 : ℝ) ≤ predictProba m url
    unfold predLabel
    by_cases h : (1 / 2 : ℝ) ≤ predictProba m url
    · rw [if_pos h]
      exact ⟨fun _ => h, fun _ => rfl⟩
    · rw [if_neg h]
      exact ⟨fun hc => absurd hc (by decide), fun hc => absurd hc h⟩

/-- C6: for every model and URL, `top_contributors` has length at most 5,
is ordered by non-increasing absolute carried contribution, and entries
with tied absolute contribution appear in the order of the underlying
entry list (which lists the features in their canonical declaration
order): for every tie class, the filtered output is an initial run of the
filtered entry list (stable sort). -/
theorem c6_top_contributors_sorted_stable (m : URLModel) (url : String) :
    (predictWithExplain m url).top_contributors.length ≤ 5 ∧
    (predictWithExplain m url).top_contributors.Pairwise
      (fun a b => |b.logit_contribution| ≤ |a.logit_contribution|) ∧
    ∀ q : ℚ, ∃ t,
      (contribEntries m url).filter
          (fun e => decide (|e.logit_contribution| = q)) =
        (predictWithExplain m url).top_contributors.filter
          (fun e => decide (|e.logit_contribution| = q)) ++ t := by
  refine ⟨List.length_take_le 5 _, ?_, ?_⟩
  · exact List.Pairwise.sublist (List.take_sublist 5 _)
      (pairwise_sortByAbsDesc Contributor.logit_contribution _)
  · intro q
    have hpkey : ∀ a b : Contributor,
        decide (|a.logit_contribution| = q) = true →
        decide (|b.logit_contribution| = q) = true →
        |Contributor.logit_contribution a| = |Contributor.logit_contribution b| := by
      intro a b ha hb
      rw [of_decide_eq_true ha, of_decide_eq_true hb]
    refine ⟨((sortByAbsDesc Contributor.logit_contribution
        (contribEntries m url)).drop 5).filter
          (fun e => decide (|e.logit_contribution| = q)), ?_⟩
    have h1 := filter_sortByAbsDesc Contributor.logit_contribution
      (fun e => decide (|e.logit_contribution| = q)) (contribEntries m url) hpkey
    rw [← h1, ← List.filter_append]
    show _ = ((sortByAbsDesc Contributor.logit_contribution
        (contribEntries m url)).take 5 ++
      (sortByAbsDesc Contributor.logit_contribution
        (contribEntries m url)).drop 5).filter
        (fun e => decide (|e.logit_contribution| = q))
    rw [List.take_append_drop]

theorem logit_mem_zipWith :
    ∀ (ps : List (String × ℚ)) (vs : List ℝ) (x : Contributor),
      x ∈ List.zipWith
          (fun (p : String × ℚ) (v : ℝ) => Contributor.mk p.1 v p.2) ps vs →
      ∃ p ∈ ps, x.logit_contribution = p.2 := by
  intro ps
  induction ps with
  | nil => intro vs x h; simp at h
  | cons p ps ih =>
    intro vs x h
    cases vs with
    | nil => simp at h
    | cons v vs =>
      rcases List.mem_cons.mp h with rfl | h'
      · exact ⟨p, List.mem_cons_self p ps, rfl⟩
      · obtain ⟨p', hp', he⟩ := ih vs x h'
        exact ⟨p', List.mem_cons_of_mem _ hp', he⟩

theorem contribEntries_logit_one (names : List String) (n : ℕ) (b : ℚ)
    (url : String) :
    ∀ x ∈ contribEntries ⟨⟨List.replicate n 1, b⟩, names⟩ url,
      x.logit_contribution = 1 := by
  intro x hx
  obtain ⟨p, hp, he⟩ := logit_mem_zipWith _ _ x hx
  have hmem : p.2 ∈ List.replicate n (1 : ℚ) := (List.of_mem_zip hp).2
  rw [he, List.eq_of_mem_replicate hmem]

/-- C1 (code bug): on the all-ones model over the canonical 13 features and
the input URL `"aa"`, the first returned contributor is the `length`
feature with observed value `2` but carried `logit_contribution = 1` — the
raw coefficient `coef[i]` from the line-94 zip, not the product
`weight * value = 1 * 2 = 2` required by the claim (which the dead
line-91 list does compute). -/
theorem c1_contribution_is_raw_coefficient :
    ((predictWithExplain ⟨⟨List.replicate 13 1, 0⟩, featureKeys⟩
        "aa").top_contributors.head?.map Contributor.feature = some "length") ∧
    ((predictWithExplain ⟨⟨List.replicate 13 1, 0⟩, featureKeys⟩
        "aa").top_contributors.head?.map Contributor.value = some 2) ∧
    ((predictWithExplain ⟨⟨List.replicate 13 1, 0⟩, featureKeys⟩
        "aa").top_contributors.head?.map
        (fun e => (e.logit_contribution : ℝ)) = some 1) ∧
    ((contributionsDead ⟨⟨List.replicate 13 1, 0⟩, featureKeys⟩
        "aa").head?.map Prod.snd = some 2) ∧
    ((weightOf ⟨⟨List.replicate 13 1, 0⟩, featureKeys⟩ "length" : ℝ) * 2 ≠ 1) := by
  have hsort : sortByAbsDesc Contributor.logit_contribution
      (contribEntries ⟨⟨List.replicate 13 1, 0⟩, featureKeys⟩ "aa")
      = contribEntries ⟨⟨List.replicate 13 1, 0⟩, featureKeys⟩ "aa" := by
    refine sortByAbsDesc_of_no_lt _ _ ?_
    intro x hx y hy
    rw [contribEntries_logit_one _ _ _ _ x hx,
      contribEntries_logit_one _ _ _ _ y hy]
    exact lt_irrefl _
  have htop : (predictWithExplain ⟨⟨List.replicate 13 1, 0⟩, featureKeys⟩
      "aa").top_contributors
      = (contribEntries ⟨⟨List.replicate 13 1, 0⟩, featureKeys⟩ "aa").take 5 := by
    show (sortByAbsDesc Contributor.logit_contribution
      (contribEntries ⟨⟨List.replicate 13 1, 0⟩, featureKeys⟩ "aa")).take 5 = _
    rw [hsort]
  have hlen2 : (pyStrip "aa".data).length = 2 := by decide
  have hval : (((extractFeatures "aa").lookup "length").getD 0 : ℝ) = 2 := by
    show (((pyStrip "aa".data).length : ℕ) : ℝ) = 2
    rw [hlen2]
    norm_num
  refine ⟨?_, ?_, ?_, ?_, ?_⟩
  · rw [htop]; rfl
  · rw [htop]
    show some (((extractFeatures "aa").lookup "length").getD 0) = some 2
    rw [hval]
  · rw [htop]
    show some (((1 : ℚ) : ℝ)) = some 1
    norm_num
  · show some ((((extractFeatures "aa").lookup "length").getD 0) * ((1 : ℚ) : ℝ))
        = some 2
    rw [hval]
    norm_num
  · have hw : weightOf ⟨⟨List.replicate 13 1, 0⟩, featureKeys⟩ "length" = 1 := rfl
    rw [hw]
    norm_num

/- ================= lifecycle claims ================= -/

/-- C2 counterexample: starting from an empty store, both of two
consecutive `ensure_model()` calls execute the full `train_or_load`
routine — the first takes the training branch and the second re-runs the
artifact load from disk — so initialization work is triggered on every
call, not at most once. -/
theorem c2_counterexample_both_calls_run_init :
    (twoEnsureModelCalls ⟨⟨List.replicate 13 1, 0⟩, true⟩ ⟨none⟩).1.path
        = InitPath.trainPath ∧
    (twoEnsureModelCalls ⟨⟨List.replicate 13 1, 0⟩, true⟩ ⟨none⟩).2.path
        = InitPath.loadPath :=
  ⟨rfl, rfl⟩

/-- C2 (amended): whenever two consecutive `ensure_model()` calls both
return a model, the two returned models are equal as values (same weights
and same feature-name order) — but each call re-runs `train_or_load` and
constructs a fresh `URLModel`, with no single-initialization guard. -/
theorem c2_two_calls_yield_equal_model_values (env : Env) (fs : FS)
    (m1 m2 : URLModel)
    (h1 : (twoEnsureModelCalls env fs).1.result = Except.ok m1)
    (h2 : (twoEnsureModelCalls env fs).2.result = Except.ok m2) :
    m1 = m2 := by
  obtain ⟨mo⟩ := fs
  cases mo with
  | some c =>
    have e1 : (twoEnsureModelCalls env ⟨some c⟩).1.result
        = Except.ok ⟨c, loadedFeatureNames⟩ := rfl
    have e2 : (twoEnsureModelCalls env ⟨some c⟩).2.result
        = Except.ok ⟨c, loadedFeatureNames⟩ := rfl
    rw [e1] at h1
    rw [e2] at h2
    rw [← Except.ok.inj h1, ← Except.ok.inj h2]
  | none =>
    obtain ⟨f, so⟩ := env
    cases so with
    | false =>
      have e1 : (twoEnsureModelCalls ⟨f, false⟩ ⟨none⟩).1.result
          = Except.error "joblib.dump raised" := rfl
      rw [e1] at h1
      exact absurd h1 (by simp)
    | true =>
      have e1 : (twoEnsureModelCalls ⟨f, true⟩ ⟨none⟩).1.result
          = Except.ok ⟨f, trainedFeatureNames⟩ := rfl
      have e2 : (twoEnsureModelCalls ⟨f, true⟩ ⟨none⟩).2.result
          = Except.ok ⟨f, loadedFeatureNames⟩ := rfl
      rw [e1] at h1
      rw [e2] at h2
      rw [← Except.ok.inj h1, ← Except.ok.inj h2,
        trainedFeatureNames_eq, loadedFeatureNames_eq]

/-- C2 witness: a concrete two-call trace from an empty store in which
both calls return, and the returned models are equal as values. -/
theorem c2_two_calls_witness :
    (twoEnsureModelCalls ⟨⟨[1], 0⟩, true⟩ ⟨none⟩).1.result
        = Except.ok ⟨⟨[1], 0⟩, trainedFeatureNames⟩ ∧
    (twoEnsureModelCalls ⟨⟨[1], 0⟩, true⟩ ⟨none⟩).2.result
        = Except.ok ⟨⟨[1], 0⟩, loadedFeatureNames⟩ ∧
    (⟨⟨[1], 0⟩, trainedFeatureNames⟩ : URLModel)
        = ⟨⟨[1], 0⟩, loadedFeatureNames⟩ :=
  ⟨rfl, rfl, c2_two_calls_yield_equal_model_values ⟨⟨[1], 0⟩, true⟩ ⟨none⟩ _ _ rfl rfl⟩

/-- C3 counterexample: with no persisted artifact and a failing
`joblib.dump`, `train_or_load` propagates the write failure as an error
and returns no in-memory model (the dump at line 232 sits outside the
`try`/`except`, which only guards the diagnostic evaluation). -/
theorem c3_counterexample_dump_failure_is_fatal :
    (trainOrLoad ⟨⟨List.replicate 13 1, 0⟩, false⟩ ⟨none⟩).result
      = Except.error "joblib.dump raised" := rfl

/-- C3 (amended): on the training path, `train_or_load` returns a model
exactly when the artifact write succeeds; a failed write propagates as an
error instead of being surfaced as a warning (only the evaluation step at
lines 234–240 is guarded). -/
theorem c3_dump_failure_propagates (env : Env) (fs : FS)
    (h : fs.model = none) :
    ((trainOrLoad env fs).result = Except.error "joblib.dump raised"
        ↔ env.saveOk = false) ∧
    (env.saveOk = true →
      (trainOrLoad env fs).result
        = Except.ok ⟨env.fitted, trainedFeatureNames⟩) := by
  obtain ⟨mo⟩ := fs
  cases mo with
  | some c => simp at h
  | none =>
    obtain ⟨f, so⟩ := env
    cases so with
    | false =>
      have e : (trainOrLoad ⟨f, false⟩ ⟨none⟩).result
          = Except.error "joblib.dump raised" := rfl
      refine ⟨⟨fun _ => rfl, fun _ => e⟩, ?_⟩
      intro hc
      simp at hc
    | true =>
      have e : (trainOrLoad ⟨f, true⟩ ⟨none⟩).result
          = Except.ok ⟨f, trainedFeatureNames⟩ := rfl
      refine ⟨⟨fun hc => ?_, fun hc => ?_⟩, fun _ => e⟩
      · rw [e] at hc
        simp at hc
      · simp at hc

/-- C3 witness: the concrete failing-write environment satisfies the
hypothesis and the amended property. -/
theorem c3_dump_failure_witness :
    (FS.mk none).model = none ∧
    (((trainOrLoad ⟨⟨[1], 0⟩, false⟩ ⟨none⟩).result
        = Except.error "joblib.dump raised"
        ↔ (Env.mk ⟨[1], 0⟩ false).saveOk = false) ∧
     ((Env.mk ⟨[1], 0⟩ false).saveOk = true →
      (trainOrLoad ⟨⟨[1], 0⟩, false⟩ ⟨none⟩).result
        = Except.ok ⟨(Env.mk ⟨[1], 0⟩ false).fitted, trainedFeatureNames⟩)) :=
  ⟨rfl, c3_dump_failure_propagates ⟨⟨[1], 0⟩, false⟩ ⟨none⟩ rfl⟩

/-- C7: persisting a fitted model during training and reloading it yields
a model with the identical classifier (weights and intercept, exactly,
hence within any tolerance), the identical feature-name-to-index order as
fixed at training time, and therefore identical `predict_proba` on every
probe URL. -/
theorem c7_persist_reload_round_trip (env : Env) (m1 m2 : URLModel)
    (h1 : (trainOrLoad env ⟨none⟩).result = Except.ok m1)
    (h2 : (trainOrLoad env (trainOrLoad env ⟨none⟩).fs).result
        = Except.ok m2) :
    m2.clf = m1.clf ∧ m2.feature_names = m1.feature_names ∧
    ∀ url, predictProba m2 url = predictProba m1 url := by
  obtain ⟨f, so⟩ := env
  cases so with
  | false =>
    have e1 : (trainOrLoad ⟨f, false⟩ ⟨none⟩).result
        = Except.error "joblib.dump raised" := rfl
    rw [e1] at h1
    exact absurd h1 (by simp)
  | true =>
    have e1 : (trainOrLoad ⟨f, true⟩ ⟨none⟩).result
        = Except.ok ⟨f, trainedFeatureNames⟩ := rfl
    have e2 : (trainOrLoad ⟨f, true⟩ (trainOrLoad ⟨f, true⟩ ⟨none⟩).fs).result
        = Except.ok ⟨f, loadedFeatureNames⟩ := rfl
    rw [e1] at h1
    rw [e2] at h2
    rw [← Except.ok.inj h1, ← Except.ok.inj h2]
    refine ⟨rfl, ?_, ?_⟩
    · show loadedFeatureNames = trainedFeatureNames
      rw [trainedFeatureNames_eq, loadedFeatureNames_eq]
    · intro url
      show predictProba ⟨f, loadedFeatureNames⟩ url
          = predictProba ⟨f, trainedFeatureNames⟩ url
      rw [trainedFeatureNames_eq, loadedFeatureNames_eq]

/-- C7 witness: a concrete train-then-reload trace satisfying both
hypotheses and the round-trip property. -/
theorem c7_round_trip_witness :
    (trainOrLoad ⟨⟨[2], 1⟩, true⟩ ⟨none⟩).result
        = Except.ok ⟨⟨[2], 1⟩, trainedFeatureNames⟩ ∧
    (trainOrLoad ⟨⟨[2], 1⟩, true⟩ (trainOrLoad ⟨⟨[2], 1⟩, true⟩ ⟨none⟩).fs).result
        = Except.ok ⟨⟨[2], 1⟩, loadedFeatureNames⟩ ∧
    ((⟨⟨[2], 1⟩, loadedFeatureNames⟩ : URLModel).clf
        = (⟨⟨[2], 1⟩, trainedFeatureNames⟩ : URLModel).clf ∧
     (⟨⟨[2], 1⟩, loadedFeatureNames⟩ : URLModel).feature_names
        = (⟨⟨[2], 1⟩, trainedFeatureNames⟩ : URLModel).feature_names ∧
     ∀ url, predictProba ⟨⟨[2], 1⟩, loadedFeatureNames⟩ url
        = predictProba ⟨⟨[2], 1⟩, trainedFeatureNames⟩ url) :=
  ⟨rfl, rfl, c7_persist_reload_round_trip ⟨⟨[2], 1⟩, true⟩ _ _ rfl rfl⟩

end Phish
